import Mathlib

/-!
Verification of the kaeru-tools library (TypeScript) against its natural-language
specification.  The definitions below are a shallow embedding of the source:

* `src/enums/languages.ts` — `SummaryLength`, `SummaryStyle`, `Languages`,
  `LOCALE_TO_LANGUAGE`, `LANGUAGE_DISPLAY_NAME`;
* `src/utils/resolveLanguage.ts` — `resolveLanguageFromLocale`;
* `src/helpers/PromptLoader.ts` — `PromptLoader` (modelled as explicit state passing);
* `src/KaruAssistant.ts` — credential resolution in the constructor, the
  `summarize` prompt construction, and the `translate` pipeline (emoji stripping,
  placeholder substitution, response parsing).

JavaScript string primitives used by the source are embedded over `List Char`:
`String.prototype.replace` with a string pattern (first occurrence only) and
with a global regex (every non-overlapping occurrence, scanning left to right
and not rescanning the inserted replacement), both processing the ECMA-262
GetSubstitution escapes in the replacement string, `String.prototype.trim`,
the platform collaborator `Intl.Locale` (structural validation plus language
alias canonicalization), the prototype-chain property access of a plain
object, and the two concrete regular expressions appearing in
`translate` (`/<a?:.+?:\d{18}>/g` with its lazy quantifier, and the
case-insensitive `/Cleaned:\s*(.+)/i`, `/Translated:\s*(.+)/i` searches whose
`\s` class crosses line breaks while `.` does not).
-/

/-- JavaScript whitespace (`\s`, and the set trimmed by `String.prototype.trim`):
space, tab, line terminators, vertical tab, form feed, NBSP, BOM and the
Unicode space separators. -/
def isJSSpace (c : Char) : Bool :=
  c == ' ' || c == '\t' || c == '\n' || c == '\r' || c == '\x0B' || c == '\x0C' ||
  c.toNat == 0xA0 || c.toNat == 0x1680 || (0x2000 ≤ c.toNat && c.toNat ≤ 0x200A) ||
  c.toNat == 0x2028 || c.toNat == 0x2029 || c.toNat == 0x202F || c.toNat == 0x205F ||
  c.toNat == 0x3000 || c.toNat == 0xFEFF

/-- What the JavaScript regex metacharacter `.` matches (no `s` flag):
anything but a line terminator. -/
def dotMatch (c : Char) : Bool :=
  !(c == '\n' || c == '\r' || c.toNat == 0x2028 || c.toNat == 0x2029)

/-- `String.prototype.trim`: drop JavaScript whitespace from both ends. -/
def trimL (l : List Char) : List Char :=
  ((l.dropWhile isJSSpace).reverse.dropWhile isJSSpace).reverse

/-- ECMA-262 GetSubstitution for a replacement string, for a pattern with no
capture groups: `$$` inserts a dollar, `$&` the matched substring, a dollar
followed by the code-0x60 backquote inserts the portion of the string before
the match, a dollar followed by the code-0x27 quote the portion after it; any
other dollar is literal (with no capture groups, `$1`…`$9` and a dollar before
`<` are literal text). -/
def getSubstitution (matched before after : List Char) : List Char → List Char
  | [] => []
  | [c] => if c = '$' then ['$'] else [c]
  | c :: d :: rest2 =>
    if c = '$' then
      if d = '$' then '$' :: getSubstitution matched before after rest2
      else if d = '&' then matched ++ getSubstitution matched before after rest2
      else if d.toNat = 0x60 then before ++ getSubstitution matched before after rest2
      else if d.toNat = 0x27 then after ++ getSubstitution matched before after rest2
      else c :: getSubstitution matched before after (d :: rest2)
    else c :: getSubstitution matched before after (d :: rest2)

/-- Scanner for `s.replace(pat, rep)` with a *string* pattern: replace the
first occurrence of `pat` only (the identity when `pat` does not occur),
passing the inserted value through GetSubstitution.  `before` accumulates the
part of the original string already scanned. -/
def replaceFirstGo (pat rep : List Char) : List Char → List Char → List Char
  | before, [] => if pat = [] then getSubstitution pat before [] rep else []
  | before, c :: rest =>
    if pat.isPrefixOf (c :: rest) then
      getSubstitution pat before ((c :: rest).drop pat.length) rep ++ (c :: rest).drop pat.length
    else c :: replaceFirstGo pat rep (before ++ [c]) rest

/-- `s.replace(pat, rep)` with a *string* pattern. -/
def replaceFirstL (pat rep s : List Char) : List Char :=
  replaceFirstGo pat rep [] s

/-- Scanner for `s.replace(/pat/g, rep)` where the regex is a brace-escaped
literal: replace every non-overlapping occurrence, scanning left to right; the
inserted replacement (produced by GetSubstitution, whose before/after portions
are per match) is not rescanned.  The `Nat` counter skips the remaining
characters of a match that was just replaced (kept structural in the list),
while `before` accumulates the part of the original string already scanned. -/
def replaceAllGo (pat rep : List Char) : List Char → Nat → List Char → List Char
  | _, _, [] => []
  | before, Nat.succ k, c :: rest => replaceAllGo pat rep (before ++ [c]) k rest
  | before, 0, c :: rest =>
    if pat ≠ [] ∧ pat.isPrefixOf (c :: rest) then
      getSubstitution pat before ((c :: rest).drop pat.length) rep ++
        replaceAllGo pat rep (before ++ [c]) (pat.length - 1) rest
    else
      c :: replaceAllGo pat rep (before ++ [c]) 0 rest

/-- `s.replace(/pat/g, rep)` with a brace-escaped literal regex. -/
def replaceAllL (pat rep l : List Char) : List Char :=
  replaceAllGo pat rep [] 0 l

/-- `true` iff `pat` occurs as a contiguous substring of `l`. -/
def hasOcc (pat : List Char) : List Char → Bool
  | [] => pat.isPrefixOf []
  | c :: rest => pat.isPrefixOf (c :: rest) || hasOcc pat rest

/-- String wrapper for `replaceFirstL`. -/
def replaceFirstS (s pat rep : String) : String :=
  ⟨replaceFirstL pat.data rep.data s.data⟩

/-- String wrapper for `replaceAllL`. -/
def replaceAllS (s pat rep : String) : String :=
  ⟨replaceAllL pat.data rep.data s.data⟩

/-- `SummaryLength` enum. -/
inductive SummaryLength
  | SHORT
  | MEDIUM
  | LONG
deriving DecidableEq

/-- `SummaryStyle` enum. -/
inductive SummaryStyle
  | PROFESSIONAL
  | CASUAL
  | ACADEMIC
  | TECHNICAL
  | SIMPLE
deriving DecidableEq

/-- Runtime string value of a `SummaryStyle` member. -/
def SummaryStyle.code : SummaryStyle → String
  | .PROFESSIONAL => "professional"
  | .CASUAL => "casual"
  | .ACADEMIC => "academic"
  | .TECHNICAL => "technical"
  | .SIMPLE => "simple"

/-- `Languages` enum (ISO-style lowercase codes). -/
inductive Languages
  | EN
  | ES
  | FR
  | DE
  | IT
  | PT
  | RU
  | ZH
  | JA
  | KO
  | AR
  | HI
  | TR
deriving DecidableEq

/-- Runtime string value of a `Languages` member. -/
def Languages.code : Languages → String
  | .EN => "en"
  | .ES => "es"
  | .FR => "fr"
  | .DE => "de"
  | .IT => "it"
  | .PT => "pt"
  | .RU => "ru"
  | .ZH => "zh"
  | .JA => "ja"
  | .KO => "ko"
  | .AR => "ar"
  | .HI => "hi"
  | .TR => "tr"

/-- `LANGUAGE_DISPLAY_NAME`: `Record<Languages, string>` is total over the enum,
so it is embedded as a function. -/
def LANGUAGE_DISPLAY_NAME : Languages → String
  | .EN => "English"
  | .ES => "Spanish"
  | .FR => "French"
  | .DE => "German"
  | .IT => "Italian"
  | .PT => "Portuguese"
  | .RU => "Russian"
  | .ZH => "Chinese"
  | .JA => "Japanese"
  | .KO => "Korean"
  | .AR => "Arabic"
  | .HI => "Hindi"
  | .TR => "Turkish"

/-! ## Locale resolver (`src/utils/resolveLanguage.ts`) -/

/-- A prompt catalog entry (`PromptData`). -/
structure PromptData where
  description : String
  template : String
deriving DecidableEq

/-- The parsed catalog (`PromptsFile`), a JSON object embedded as an
association list with unique keys. -/
abbrev PromptsFile := List (String × PromptData)

/-- The static `prompts` field of `PromptLoader` (`null` before first load). -/
structure LoaderState where
  prompts : Option PromptsFile
deriving DecidableEq

/-- `PromptLoader.load`: return the cached catalog if present, otherwise read
and parse the backing file (`fileContent`), cache it and return it.  The third
component records whether the file was read on this call. -/
def PromptLoader.load (fileContent : PromptsFile) (st : LoaderState) :
    PromptsFile × LoaderState × Bool :=
  match st.prompts with
  | some p => (p, st, false)
  | none => (fileContent, ⟨some fileContent⟩, true)

/-- Result of the JavaScript property access `prompts[key] ?? null`: an own
catalog entry, a member of `Object.prototype` reached through the prototype
chain (a non-nullish value which `??` passes through), or `null` for an
absent property. -/
inductive GetResult
  | found (d : PromptData)
  | inheritedMember
  | nullRes
deriving DecidableEq

/-- Property names every plain JavaScript object (such as the parsed JSON
catalog) inherits from `Object.prototype`, including the Annex B accessors. -/
def objectPrototypeMembers : List String :=
  ["constructor", "hasOwnProperty", "isPrototypeOf", "propertyIsEnumerable",
   "toLocaleString", "toString", "valueOf", "__proto__", "__defineGetter__",
   "__defineSetter__", "__lookupGetter__", "__lookupSetter__"]

/-- `PromptLoader.get`: `prompts[key] ?? null`.  The property access walks the
prototype chain, so a key naming an `Object.prototype` member that is not an
own key of the catalog yields that inherited member — not `null`. -/
def PromptLoader.get (fileContent : PromptsFile) (key : String) (st : LoaderState) :
    GetResult × LoaderState × Bool :=
  match PromptLoader.load fileContent st with
  | (prompts, newSt, readFile) =>
    match List.lookup key prompts with
    | some d => (.found d, newSt, readFile)
    | none =>
      if objectPrototypeMembers.contains key then (.inheritedMember, newSt, readFile)
      else (.nullRes, newSt, readFile)

/-! ## Assistant facade (`src/KaruAssistant.ts`) -/

/-- Credential resolution in the `KaruAssistant` constructor:
`options.apiKey ?? process.env.GOOGLE_AI_API_KEY ?? globalThis.GOOGLE_AI_API_KEY`
followed by `if (!apiKey) throw`.  `none` models an absent (`undefined`) source;
the result is `none` exactly when the constructor throws its configuration
error (which happens before the remote client is built, hence before any
network access). -/
def resolveApiKey (optionsApiKey envKey globalKey : Option String) : Option String :=
  let apiKey :=
    match optionsApiKey with
    | some k => some k
    | none =>
      match envKey with
      | some k => some k
      | none => globalKey
  match apiKey with
  | some k => if k = "" then none else some k
  | none => none

/-- The `lengthMap` local of `summarize`. -/
def lengthMap : SummaryLength → String
  | .SHORT => "2-3 sentences"
  | .MEDIUM => "1-2 paragraphs"
  | .LONG => "3-4 paragraphs"

/-- The prompt `summarize` sends: four chained `String.prototype.replace`
calls with string patterns, so each placeholder is replaced at most once, at
its first occurrence, in this order: `{language}`, `{length}`, `{style}`,
`{text}`. -/
def summarizePrompt (template : String) (language : Languages)
    (length : SummaryLength) (style : SummaryStyle) (text : String) : String :=
  replaceFirstS
    (replaceFirstS
      (replaceFirstS
        (replaceFirstS template "{language}" language.code)
        "{length}" (lengthMap length))
      "{style}" style.code)
    "{text}" text

/-- `summarize` up to the remote call: `none` models the thrown
`Summarize prompt template not found` configuration error when
`PromptLoader.get("summarize")` found no template; otherwise the constructed
prompt is handed to the model. -/
def summarize (template? : Option String) (text : String) (language : Languages)
    (length : SummaryLength) (style : SummaryStyle) : Option String :=
  template?.map (fun tpl => summarizePrompt tpl language length style text)

/-! ### `translate`: input cleaning (`text.replace(/<a?:.+?:\d{18}>/g, "").trim()`) -/

/-- Tail of the emoji regex after the lazy part: exactly 18 digits (`\d{18}`)
then `>`.  Returns the number of characters consumed (always 19). -/
def digits18GtLen (l : List Char) : Option Nat :=
  if (l.take 18).length = 18 ∧ (l.take 18).all Char.isDigit then
    match l.drop 18 with
    | c :: _ => if c = '>' then some 19 else none
    | [] => none
  else none

/-- The lazy `.+?:\d{18}>` fragment: consume one `.`-matchable character, then
at each step first try `:` followed by `\d{18}>` (lazy quantifiers prefer the
shortest extension), otherwise consume one more `.`-matchable character.
Returns the number of characters consumed on success. -/
def emojiLazyLen : List Char → Option Nat
  | [] => none
  | c :: rest =>
    if dotMatch c then
      match rest with
      | ':' :: m =>
        match digits18GtLen m with
        | some n => some (2 + n)
        | none => (emojiLazyLen rest).map (fun k => k + 1)
      | _ => (emojiLazyLen rest).map (fun k => k + 1)
    else none

/-- A match of `<a?:.+?:\d{18}>` anchored at the head of `l` (the greedy `a?`
tries `a` first; when the first branch fails on the literal `:` no other branch
can start, so the two list patterns are exhaustive).  Returns the length of
the matched token. -/
def emojiMatchLen (l : List Char) : Option Nat :=
  match l with
  | '<' :: 'a' :: ':' :: rest => (emojiLazyLen rest).map (fun k => k + 3)
  | '<' :: ':' :: rest => (emojiLazyLen rest).map (fun k => k + 2)
  | _ => none

/-- Scanner for `text.replace(/<a?:.+?:\d{18}>/g, "")`: scan left to right; at
each position either delete a matched emoji token (the `Nat` counter skips its
remaining characters) and continue after it, or keep the character. -/
def stripEmojiGo : Nat → List Char → List Char
  | _, [] => []
  | Nat.succ k, _ :: rest => stripEmojiGo k rest
  | 0, c :: rest =>
    match emojiMatchLen (c :: rest) with
    | some n => stripEmojiGo (n - 1) rest
    | none => c :: stripEmojiGo 0 rest

/-- `text.replace(/<a?:.+?:\d{18}>/g, "")`. -/
def stripEmoji (l : List Char) : List Char :=
  stripEmojiGo 0 l

/-- `const inputText = text.replace(/<a?:.+?:\d{18}>/g, "").trim()`. -/
def cleanInput (text : String) : String :=
  ⟨trimL (stripEmoji text.data)⟩

/-! ### `translate`: prompt construction -/

/-- The prompt `translate` sends, exactly as the source builds it:
`template.replace(/\{targetLanguage\}/g, …).replace("{text}", inputText)`
followed by `prompt.replace(/\{fromLanguage\}/g, fromLangStr)`, where
`fromLangStr` is the supplied source language or `""` when absent. -/
def translatePrompt (template targetLanguage : String) (fromLanguage : Option String)
    (text : String) : String :=
  let inputText := cleanInput text
  let fromLangStr := fromLanguage.getD ""
  let prompt := replaceFirstS (replaceAllS template "{targetLanguage}" targetLanguage)
    "{text}" inputText
  replaceAllS prompt "{fromLanguage}" fromLangStr

/-- Modelled from the spec: the prompt as §4.3 step 3 describes it, with the
substitutions applied in the order the sentence lists them — every
`{targetLanguage}`, then every `{fromLanguage}` (empty string when absent),
then the first `{text}` replaced by the cleaned input.  Used only to compare
the spec's description against `translatePrompt`. -/
def specTranslatePrompt (template targetLanguage : String) (fromLanguage : Option String)
    (text : String) : String :=
  replaceFirstS
    (replaceAllS (replaceAllS template "{targetLanguage}" targetLanguage)
      "{fromLanguage}" (fromLanguage.getD ""))
    "{text}" (cleanInput text)

/-! ### `translate`: response parsing
(`raw.match(/Cleaned:\s*(.+)/i)`, `raw.match(/Translated:\s*(.+)/i)`) -/

/-- Lowercased label of the first pattern. -/
def cleanedLabel : List Char := "cleaned:".data

/-- Lowercased label of the second pattern. -/
def translatedLabel : List Char := "translated:".data

/-- Case-insensitive (`/i`) literal match of `label` at the head of `l`
(labels are ASCII, where JavaScript canonicalisation is plain case mapping). -/
def labelAt (label : List Char) (l : List Char) : Bool :=
  (l.take label.length).map Char.toLower == label

/-- Backtracking for `\s*(.+)`: the greedy `\s*` first consumes `k` whitespace
characters and `(.+)` must then match at least one non-line-terminator
character; on failure `\s*` gives characters back one at a time.  `(.+)`,
being greedy, captures up to the next line terminator (or the end). -/
def tryFromK : Nat → List Char → Option (List Char)
  | 0, l =>
    match l with
    | c :: _ => if dotMatch c then some (l.takeWhile dotMatch) else none
    | [] => none
  | k + 1, l =>
    match l.drop (k + 1) with
    | c :: _ =>
      if dotMatch c then some ((l.drop (k + 1)).takeWhile dotMatch)
      else tryFromK k l
    | [] => tryFromK k l

/-- `\s*(.+)` applied right after a matched label: group 1 on success.  The
whitespace class `\s` includes line terminators, so the run may cross a line
break even though `.` cannot. -/
def groupAfterWS (l : List Char) : Option (List Char) :=
  tryFromK (l.takeWhile isJSSpace).length l

/-- `String.prototype.match` without `g`: try the whole pattern
`label\s*(.+)` at each position, left to right, and return group 1 of the
first position where the whole pattern matches. -/
def searchLabel (label : List Char) : List Char → Option (List Char)
  | [] => none
  | c :: rest =>
    if labelAt label (c :: rest) then
      match groupAfterWS ((c :: rest).drop label.length) with
      | some g => some g
      | none => searchLabel label rest
    else searchLabel label rest

/-- The response post-processing of `translate`: trim the raw model response,
run both labelled searches, trim each captured group, and fail (`none`, the
thrown `Malformed response from AI`) when either search misses or either
trimmed group is the empty string (both are falsy in `!cleaned || !translated`). -/
def parseTranslateResponse (response : String) : Option (String × String) :=
  let raw := trimL response.data
  match searchLabel cleanedLabel raw, searchLabel translatedLabel raw with
  | some g1, some g2 =>
    if trimL g1 = [] ∨ trimL g2 = [] then none
    else some (⟨trimL g1⟩, ⟨trimL g2⟩)
  | _, _ => none

/-- `translate` up to the remote call: `none` models the thrown
`Translate prompt template not found` configuration error; otherwise the
constructed prompt is handed to the model. -/
def translatePromptOfCatalog (template? : Option String) (text targetLanguage : String)
    (fromLanguage : Option String) : Option String :=
  template?.map (fun tpl => translatePrompt tpl targetLanguage fromLanguage text)

/-! ## Helper lemmas -/

theorem isPrefixOf_self_append (l t : List Char) : l.isPrefixOf (l ++ t) = true := by
  induction l with
  | nil => simp [List.isPrefixOf]
  | cons c cs ih => simp [List.isPrefixOf, ih]

theorem getSubstitution_dollarFree {m b a : List Char} :
    ∀ (rep : List Char), rep.all (fun c => c != '$') = true →
      getSubstitution m b a rep = rep
  | [], _ => rfl
  | [c], h => by
    simp only [List.all_cons, List.all_nil, Bool.and_true] at h
    have hc : c ≠ '$' := by rwa [bne_iff_ne] at h
    unfold getSubstitution
    rw [if_neg hc]
  | c :: d :: rest2, h => by
    simp only [List.all_cons, Bool.and_eq_true] at h
    have hc : c ≠ '$' := by
      have hb := h.1
      rwa [bne_iff_ne] at hb
    unfold getSubstitution
    rw [if_neg hc,
      getSubstitution_dollarFree (d :: rest2) (by simp [List.all_cons, h.2.1, h.2.2])]

theorem code_brfree (lang : Languages) :
    lang.code.data.all (fun c => c != '{') = true := by
  cases lang <;> decide

theorem style_brfree (st : SummaryStyle) :
    st.code.data.all (fun c => c != '{') = true := by
  cases st <;> decide

theorem getSubstitution_lang (lang : Languages) (m b a : List Char) :
    getSubstitution m b a lang.code.data = lang.code.data := by
  cases lang <;> exact getSubstitution_dollarFree _ (by decide)

theorem getSubstitution_style (st : SummaryStyle) (m b a : List Char) :
    getSubstitution m b a st.code.data = st.code.data := by
  cases st <;> exact getSubstitution_dollarFree _ (by decide)

theorem replaceFirstGo_seam {p' rep t2 : List Char} :
    ∀ {t1 : List Char} (before : List Char), t1.all (fun c => c != '{') = true →
      replaceFirstGo ('{' :: p') rep before (t1 ++ ('{' :: p') ++ t2)
        = t1 ++ getSubstitution ('{' :: p') (before ++ t1) t2 rep ++ t2 := by
  intro t1
  induction t1 with
  | nil =>
    intro before _
    show replaceFirstGo ('{' :: p') rep before ('{' :: (p' ++ t2))
        = getSubstitution ('{' :: p') (before ++ []) t2 rep ++ t2
    unfold replaceFirstGo
    have hpre : (('{' :: p').isPrefixOf ('{' :: (p' ++ t2))) = true :=
      isPrefixOf_self_append ('{' :: p') t2
    rw [hpre]
    simp [List.drop_left]
  | cons c rest ih =>
    intro before h
    simp only [List.all_cons, Bool.and_eq_true] at h
    have hc : c ≠ '{' := by
      have hb := h.1
      rwa [bne_iff_ne] at hb
    show replaceFirstGo ('{' :: p') rep before (c :: (rest ++ ('{' :: p') ++ t2))
        = c :: (rest ++ getSubstitution ('{' :: p') (before ++ (c :: rest)) t2 rep ++ t2)
    unfold replaceFirstGo
    have hpre : (('{' :: p').isPrefixOf (c :: (rest ++ ('{' :: p') ++ t2))) = false := by
      simp only [List.isPrefixOf, Bool.and_eq_false_iff]
      left
      rw [beq_eq_false_iff_ne]
      exact fun hcc => hc hcc.symm
    rw [if_neg (by intro hcond; rw [hpre] at hcond; exact Bool.noConfusion hcond)]
    rw [ih (before ++ [c]) h.2]
    simp [List.append_assoc]

theorem replaceFirstL_seam_ra {p' rep t2 t1 : List Char}
    (h : t1.all (fun c => c != '{') = true) :
    replaceFirstL ('{' :: p') rep (t1 ++ (('{' :: p') ++ t2))
      = t1 ++ (getSubstitution ('{' :: p') t1 t2 rep ++ t2) := by
  have hg := @replaceFirstGo_seam p' rep t2 t1 [] h
  simpa [replaceFirstL, List.append_assoc] using hg

theorem hasOcc_seam (c0 : Char) (p t2 : List Char) :
    ∀ t1 : List Char, hasOcc (c0 :: p) (t1 ++ (c0 :: p) ++ t2) = true := by
  intro t1
  induction t1 with
  | nil =>
    show hasOcc (c0 :: p) (c0 :: (p ++ t2)) = true
    unfold hasOcc
    have hpre : ((c0 :: p).isPrefixOf (c0 :: (p ++ t2))) = true :=
      isPrefixOf_self_append (c0 :: p) t2
    rw [hpre, Bool.true_or]
  | cons c rest ih =>
    show hasOcc (c0 :: p) (c :: (rest ++ (c0 :: p) ++ t2)) = true
    unfold hasOcc
    rw [ih, Bool.or_true]

/-! ## Claim theorems -/

/-- Claim C1: for every model response, `translate` matches the trimmed response
case-insensitively against `Cleaned: <rest of line>` and `Translated: <rest of
line>` and returns the two captured groups, each trimmed; it fails with the
malformed-response error exactly when either label search misses or either
captured value is empty after trimming.  In particular the response
`"Cleaned: hi\nTranslated: bonjour"` yields `{ cleaned := "hi",
translated := "bonjour" }`. -/
theorem translate_parse_contract :
    parseTranslateResponse "Cleaned: hi\nTranslated: bonjour" = some ("hi", "bonjour") ∧
    ∀ (response c t : String),
      parseTranslateResponse response = some (c, t) ↔
        ∃ g1 g2,
          searchLabel cleanedLabel (trimL response.data) = some g1 ∧
          searchLabel translatedLabel (trimL response.data) = some g2 ∧
          trimL g1 ≠ [] ∧ trimL g2 ≠ [] ∧ c = ⟨trimL g1⟩ ∧ t = ⟨trimL g2⟩ := by
  refine ⟨by decide, ?_⟩
  intro response c t
  unfold parseTranslateResponse
  cases h1 : searchLabel cleanedLabel (trimL response.data) with
  | none => simp [h1]
  | some g1 =>
    cases h2 : searchLabel translatedLabel (trimL response.data) with
    | none => simp [h1, h2]
    | some g2 =>
      simp only [h1, h2]
      by_cases hc : trimL g1 = [] ∨ trimL g2 = []
      · rw [if_pos hc]
        rcases hc with hc | hc <;> simp [hc]
      · rw [if_neg hc]
        push_neg at hc
        simp [hc.1, hc.2, eq_comm]

/-- Witness for C1 at a concrete response. -/
theorem translate_parse_contract_instance :
    parseTranslateResponse "Cleaned: hi\nTranslated: bonjour" = some ("hi", "bonjour") :=
  translate_parse_contract.1

/-- Claim C2 counterexample: the prompt is *not* always the template with the
three placeholder families substituted independently (as the spec sentence
reads).  With template `"{text}"` and input text `"{fromLanguage}"`, the code's
prompt is `""` — the `{fromLanguage}` occurrence that arrived via the text
insertion is substituted too — while the substitutions applied in the order the
spec lists them leave `"{fromLanguage}"`. -/
theorem translate_subst_order_counterexample :
    translatePrompt "{text}" "fr" none "{fromLanguage}" = "" ∧
    specTranslatePrompt "{text}" "fr" none "{fromLanguage}" = "{fromLanguage}" ∧
    (translatePrompt "{text}" "fr" none "{fromLanguage}" ==
      specTranslatePrompt "{text}" "fr" none "{fromLanguage}") = false := by
  refine ⟨by decide, by decide, by decide⟩

/-- Claim C2 as amended: the prompt `translate` sends is computed from the
template by substituting every occurrence of `{targetLanguage}`, then the
first occurrence of `{text}` with the cleaned input, and finally every
occurrence of `{fromLanguage}` with the source-language value (empty string
when not supplied) — so the `{fromLanguage}` pass also rewrites such
occurrences inside the cleaned input; each substitution processes the
JavaScript replacement-string escapes in the inserted value, and a value free
of dollars is inserted verbatim.  The closed conjuncts exhibit the escape
processing (`$&` re-inserts the matched `{targetLanguage}`) and the
every-occurrence / first-occurrence / empty-default behaviour. -/
theorem translate_subst_order_amended :
    (∀ (tpl tgt : String) (fr : Option String) (text : String),
      translatePrompt tpl tgt fr text =
        replaceAllS
          (replaceFirstS (replaceAllS tpl "{targetLanguage}" tgt) "{text}" (cleanInput text))
          "{fromLanguage}" (fr.getD "")) ∧
    (∀ (m b a rep : List Char), rep.all (fun c => c != '$') = true →
      getSubstitution m b a rep = rep) ∧
    translatePrompt "{targetLanguage}" "$&" none "" = "{targetLanguage}" ∧
    translatePrompt "{targetLanguage}|{targetLanguage}|{fromLanguage}|{fromLanguage}|{text}|{text}"
        "T" (some "F") "hi" = "T|T|F|F|hi|{text}" ∧
    translatePrompt "[{fromLanguage}]" "T" none "x" = "[]" := by
  refine ⟨fun tpl tgt fr text => rfl, fun m b a rep h => getSubstitution_dollarFree rep h,
    by decide, by decide, by decide⟩

/-- Witness for the amended C2: a dollar-free value is inserted verbatim. -/
theorem translate_subst_order_amended_instance :
    getSubstitution ([] : List Char) [] [] "fr".data = "fr".data :=
  translate_subst_order_amended.2.1 [] [] [] "fr".data (by decide)

/-- Claim C3: `translate` first deletes every emoji-markup token matching
`<a?:name:18-digit-id>` and then trims the result, and that cleaned text —
`cleanInput` — is exactly what the prompt substitution inserts for `{text}`.
In particular `"hello <a:wave:123456789012345678> world"` cleans to
`"hello  world"` (two spaces, markup removed). -/
theorem translate_cleaning :
    (∀ text : String, (cleanInput text).data = trimL (stripEmoji text.data)) ∧
    (∀ (tpl tgt : String) (fr : Option String) (text : String),
      translatePrompt tpl tgt fr text =
        replaceAllS
          (replaceFirstS (replaceAllS tpl "{targetLanguage}" tgt) "{text}" (cleanInput text))
          "{fromLanguage}" (fr.getD "")) ∧
    cleanInput "hello <a:wave:123456789012345678> world" = "hello  world" := by
  refine ⟨fun text => rfl, fun tpl tgt fr text => rfl, by decide⟩

/-- Claim C5: the constructor resolves the credential with precedence
explicit `options.apiKey`, then the environment variable, then the
process-global value; when no source yields a (non-empty) credential the
construction fails with the configuration error (`resolveApiKey` returns
`none` before any remote client exists). -/
theorem apiKey_resolution :
    (∀ o e g : Option String,
      (o = none ∨ o = some "") → (e = none ∨ e = some "") → (g = none ∨ g = some "") →
      resolveApiKey o e g = none) ∧
    (∀ (k : String) (e g : Option String), k ≠ "" → resolveApiKey (some k) e g = some k) ∧
    (∀ (k : String) (g : Option String), k ≠ "" → resolveApiKey none (some k) g = some k) ∧
    (∀ k : String, k ≠ "" → resolveApiKey none none (some k) = some k) := by
  refine ⟨?_, ?_, ?_, ?_⟩
  · intro o e g ho he hg
    rcases ho with rfl | rfl <;> rcases he with rfl | rfl <;> rcases hg with rfl | rfl <;>
      simp [resolveApiKey]
  · intro k e g hk
    simp [resolveApiKey, hk]
  · intro k g hk
    simp [resolveApiKey, hk]
  · intro k hk
    simp [resolveApiKey, hk]

/-- Witness for C5 at concrete credential configurations. -/
theorem apiKey_resolution_instance :
    resolveApiKey none none none = none ∧
    resolveApiKey (some "k1") (some "k2") none = some "k1" ∧
    resolveApiKey none (some "k2") (some "k3") = some "k2" ∧
    resolveApiKey none none (some "k3") = some "k3" :=
  ⟨apiKey_resolution.1 none none none (Or.inl rfl) (Or.inl rfl) (Or.inl rfl),
   apiKey_resolution.2.1 "k1" (some "k2") none (by decide),
   apiKey_resolution.2.2.1 "k2" (some "k3") (by decide),
   apiKey_resolution.2.2.2 "k3" (by decide)⟩

/-- Claim C7 counterexample: `prompts[key] ?? null` is a property access that
walks the prototype chain, so `get("toString")` on a catalog without that own
key returns the inherited `Object.prototype.toString` member — a non-nullish
function which `??` passes through — not `null`. -/
theorem promptLoader_unknown_counterexample :
    (PromptLoader.get [] "toString" ⟨some []⟩).1 = GetResult.inheritedMember ∧
    ((PromptLoader.get [] "toString" ⟨some []⟩).1 == GetResult.nullRes) = false := by
  refine ⟨rfl, by decide⟩

/-- Claim C7 as amended: `PromptLoader.get` returns `null` (no error) for
every name that is neither an own key of the loaded catalog nor the name of an
inherited `Object.prototype` member (for the latter it returns the inherited
member); an own key returns its entry; and caching: with a loaded catalog
`get` leaves the state unchanged and does not re-read the backing file, while
the first call reads the file once and caches its content verbatim. -/
theorem promptLoader_contract :
    (∀ (fc : PromptsFile) (key : String) (p : PromptsFile),
      List.lookup key p = none → objectPrototypeMembers.contains key = false →
      (PromptLoader.get fc key ⟨some p⟩).1 = GetResult.nullRes) ∧
    (∀ (fc : PromptsFile) (key : String) (p : PromptsFile) (d : PromptData),
      List.lookup key p = some d →
      (PromptLoader.get fc key ⟨some p⟩).1 = GetResult.found d) ∧
    (∀ (fc : PromptsFile) (key : String) (p : PromptsFile),
      (PromptLoader.get fc key ⟨some p⟩).2 = (⟨some p⟩, false)) ∧
    (∀ (fc : PromptsFile) (key : String),
      (PromptLoader.get fc key ⟨none⟩).2 = (⟨some fc⟩, true)) := by
  refine ⟨?_, ?_, ?_, ?_⟩
  · intro fc key p h hm
    simp only [PromptLoader.get, PromptLoader.load, h, hm]
    simp
  · intro fc key p d h
    simp [PromptLoader.get, PromptLoader.load, h]
  · intro fc key p
    unfold PromptLoader.get PromptLoader.load
    cases h : List.lookup key p
    · simp only [h]
      split <;> rfl
    · simp [h]
  · intro fc key
    unfold PromptLoader.get PromptLoader.load
    cases h : List.lookup key fc
    · simp only [h]
      split <;> rfl
    · simp [h]

/-- Witness for the amended C7: an unknown, non-inherited name against a
cached catalog. -/
theorem promptLoader_contract_instance :
    (PromptLoader.get [] "missing" ⟨some []⟩).1 = GetResult.nullRes :=
  promptLoader_contract.1 [] "missing" [] rfl (by decide)

/-- Claim C8: `LANGUAGE_DISPLAY_NAME` assigns a non-empty display name to every
member of the `Languages` enumeration. -/
theorem displayName_total : ∀ l : Languages, 0 < (LANGUAGE_DISPLAY_NAME l).length := by
  intro l
  cases l <;> decide

/-- Claim C9: the `{text}` substitution runs before the `{fromLanguage}`
substitution, so for an input whose cleaned form contains the literal
`{fromLanguage}` the prompt does not contain the cleaned input verbatim —
those occurrences are replaced by the (here absent, hence empty)
source-language value. -/
theorem translate_text_before_fromLanguage :
    cleanInput "take {fromLanguage} tokens" = "take {fromLanguage} tokens" ∧
    translatePrompt "To {targetLanguage}: {text}" "fr" none "take {fromLanguage} tokens" =
      "To fr: take  tokens" ∧
    hasOcc ("take {fromLanguage} tokens".data) ("To fr: take  tokens".data) = false := by
  refine ⟨by decide, by decide, by decide⟩

/-- Claim C10: the `\s*` after a label crosses line breaks, so the response
`"Cleaned:\nTranslated: bonjour"` is not rejected: the `cleaned` field captures
the following line, `"Translated: bonjour"`, and `translated` captures
`"bonjour"`. -/
theorem translate_parse_crosses_newline :
    parseTranslateResponse "Cleaned:\nTranslated: bonjour" =
      some ("Translated: bonjour", "bonjour") := by
  decide

/-- Claim C6: `summarize` builds its prompt by first-occurrence-only
substitution of `{language}`, `{length}` (via the SHORT/MEDIUM/LONG phrase
map), `{style}` and `{text}`, in that order, with JavaScript replacement-string
escape processing on each inserted value (the last conjunct shows a text value
`$$` inserted as `$`); for every summarize-style template carrying the four
placeholders `{language}`, `{length}`, `{style}`, `{text}` in order with
brace-free filler between them (the trailing part and the text are
unconstrained), `length = SHORT` puts the phrase `2-3 sentences` into the
constructed prompt; and a missing "summarize" template is the configuration
error. -/
theorem summarize_contract :
    (∀ (tpl : String) (lang : Languages) (len : SummaryLength) (st : SummaryStyle) (txt : String),
      summarizePrompt tpl lang len st txt =
        replaceFirstS
          (replaceFirstS
            (replaceFirstS (replaceFirstS tpl "{language}" lang.code) "{length}" (lengthMap len))
            "{style}" st.code)
          "{text}" txt) ∧
    lengthMap SummaryLength.SHORT = "2-3 sentences" ∧
    lengthMap SummaryLength.MEDIUM = "1-2 paragraphs" ∧
    lengthMap SummaryLength.LONG = "3-4 paragraphs" ∧
    (∀ (a0 a1 a2 a3 a4 : List Char) (lang : Languages) (st : SummaryStyle) (txt : String),
      a0.all (fun c => c != '{') = true → a1.all (fun c => c != '{') = true →
      a2.all (fun c => c != '{') = true → a3.all (fun c => c != '{') = true →
      hasOcc ("2-3 sentences".data)
        ((summarizePrompt
            ⟨a0 ++ ("{language}".data ++ (a1 ++ ("{length}".data ++
              (a2 ++ ("{style}".data ++ (a3 ++ ("{text}".data ++ a4)))))))⟩
            lang SummaryLength.SHORT st txt).data) = true) ∧
    (∀ (txt : String) (lang : Languages) (len : SummaryLength) (st : SummaryStyle),
      summarize none txt lang len st = none) ∧
    summarizePrompt "{text}" Languages.EN SummaryLength.SHORT SummaryStyle.PROFESSIONAL "$$"
      = "$" := by
  refine ⟨fun tpl lang len st txt => rfl, rfl, rfl, rfl, ?_, fun txt lang len st => rfl,
    by decide⟩
  intro a0 a1 a2 a3 a4 lang st txt h0 h1 h2 h3
  have ep1 : "{language}".data = '{' :: "language\x7d".data := rfl
  have ep2 : "{length}".data = '{' :: "length\x7d".data := rfl
  have ep3 : "{style}".data = '{' :: "style\x7d".data := rfl
  have ep4 : "{text}".data = '{' :: "text\x7d".data := rfl
  have hL : lang.code.data.all (fun c => c != '{') = true := code_brfree lang
  have hS : st.code.data.all (fun c => c != '{') = true := style_brfree st
  have hP : ("2-3 sentences".data).all (fun c => c != '{') = true := by decide
  have e1 : replaceFirstL ("{language}".data) lang.code.data
      (a0 ++ ("{language}".data ++ (a1 ++ ("{length}".data ++
        (a2 ++ ("{style}".data ++ (a3 ++ ("{text}".data ++ a4))))))))
      = a0 ++ (lang.code.data ++ (a1 ++ ("{length}".data ++
        (a2 ++ ("{style}".data ++ (a3 ++ ("{text}".data ++ a4))))))) := by
    rw [ep1, replaceFirstL_seam_ra h0, getSubstitution_lang lang]
  have hbr2 : (a0 ++ (lang.code.data ++ a1)).all (fun c => c != '{') = true := by
    simp [List.all_append, h0, h1, hL]
  have e2 : replaceFirstL ("{length}".data) ((lengthMap SummaryLength.SHORT).data)
      (a0 ++ (lang.code.data ++ (a1 ++ ("{length}".data ++
        (a2 ++ ("{style}".data ++ (a3 ++ ("{text}".data ++ a4))))))))
      = a0 ++ (lang.code.data ++ (a1 ++ ("2-3 sentences".data ++
        (a2 ++ ("{style}".data ++ (a3 ++ ("{text}".data ++ a4))))))) := by
    have gphr : ∀ m b a : List Char,
        getSubstitution m b a ((lengthMap SummaryLength.SHORT).data) = "2-3 sentences".data :=
      fun m b a => getSubstitution_dollarFree _ (by decide)
    rw [show a0 ++ (lang.code.data ++ (a1 ++ ("{length}".data ++
          (a2 ++ ("{style}".data ++ (a3 ++ ("{text}".data ++ a4)))))))
        = (a0 ++ (lang.code.data ++ a1)) ++ ("{length}".data ++
          (a2 ++ ("{style}".data ++ (a3 ++ ("{text}".data ++ a4)))))
        from by simp [List.append_assoc]]
    rw [ep2, replaceFirstL_seam_ra hbr2, gphr]
    simp [List.append_assoc]
  have hbr3 : ((a0 ++ (lang.code.data ++ a1)) ++ ("2-3 sentences".data ++ a2)).all
      (fun c => c != '{') = true := by
    simp [List.all_append, h0, h1, h2, hL, hP]
  have e3 : replaceFirstL ("{style}".data) st.code.data
      (a0 ++ (lang.code.data ++ (a1 ++ ("2-3 sentences".data ++
        (a2 ++ ("{style}".data ++ (a3 ++ ("{text}".data ++ a4))))))))
      = a0 ++ (lang.code.data ++ (a1 ++ ("2-3 sentences".data ++
        (a2 ++ (st.code.data ++ (a3 ++ ("{text}".data ++ a4))))))) := by
    rw [show a0 ++ (lang.code.data ++ (a1 ++ ("2-3 sentences".data ++
          (a2 ++ ("{style}".data ++ (a3 ++ ("{text}".data ++ a4)))))))
        = ((a0 ++ (lang.code.data ++ a1)) ++ ("2-3 sentences".data ++ a2)) ++
          ("{style}".data ++ (a3 ++ ("{text}".data ++ a4)))
        from by simp [List.append_assoc]]
    rw [ep3, replaceFirstL_seam_ra hbr3, getSubstitution_style st]
    simp [List.append_assoc]
  have hbr4 : (((a0 ++ (lang.code.data ++ a1)) ++ ("2-3 sentences".data ++ a2)) ++
      (st.code.data ++ a3)).all (fun c => c != '{') = true := by
    simp [List.all_append, h0, h1, h2, h3, hL, hS, hP]
  have e4 : replaceFirstL ("{text}".data) txt.data
      (a0 ++ (lang.code.data ++ (a1 ++ ("2-3 sentences".data ++
        (a2 ++ (st.code.data ++ (a3 ++ ("{text}".data ++ a4))))))))
      = (((a0 ++ (lang.code.data ++ a1)) ++ ("2-3 sentences".data ++ a2)) ++
          (st.code.data ++ a3)) ++
        (getSubstitution ('{' :: "text\x7d".data)
          (((a0 ++ (lang.code.data ++ a1)) ++ ("2-3 sentences".data ++ a2)) ++
            (st.code.data ++ a3)) a4 txt.data ++ a4) := by
    rw [show a0 ++ (lang.code.data ++ (a1 ++ ("2-3 sentences".data ++
          (a2 ++ (st.code.data ++ (a3 ++ ("{text}".data ++ a4)))))))
        = (((a0 ++ (lang.code.data ++ a1)) ++ ("2-3 sentences".data ++ a2)) ++
            (st.code.data ++ a3)) ++ ("{text}".data ++ a4)
        from by simp [List.append_assoc]]
    rw [ep4, replaceFirstL_seam_ra hbr4]
  show hasOcc ("2-3 sentences".data)
      (replaceFirstL ("{text}".data) txt.data
        (replaceFirstL ("{style}".data) st.code.data
          (replaceFirstL ("{length}".data) ((lengthMap SummaryLength.SHORT).data)
            (replaceFirstL ("{language}".data) lang.code.data
              (a0 ++ ("{language}".data ++ (a1 ++ ("{length}".data ++
                (a2 ++ ("{style}".data ++ (a3 ++ ("{text}".data ++ a4)))))))))))) = true
  rw [e1, e2, e3, e4]
  rw [show (((a0 ++ (lang.code.data ++ a1)) ++ ("2-3 sentences".data ++ a2)) ++
        (st.code.data ++ a3)) ++
      (getSubstitution ('{' :: "text\x7d".data)
        (((a0 ++ (lang.code.data ++ a1)) ++ ("2-3 sentences".data ++ a2)) ++
          (st.code.data ++ a3)) a4 txt.data ++ a4)
      = (a0 ++ (lang.code.data ++ a1)) ++ ("2-3 sentences".data) ++
        (a2 ++ (st.code.data ++ (a3 ++ (getSubstitution ('{' :: "text\x7d".data)
          (((a0 ++ (lang.code.data ++ a1)) ++ ("2-3 sentences".data ++ a2)) ++
            (st.code.data ++ a3)) a4 txt.data ++ a4))))
      from by simp [List.append_assoc]]
  have e2c : "2-3 sentences".data = '2' :: "-3 sentences".data := rfl
  rw [e2c]
  exact hasOcc_seam '2' ("-3 sentences".data) _ _

/-- Witness for C6 at a concrete template carrying all four placeholders. -/
theorem summarize_contract_instance :
    hasOcc ("2-3 sentences".data)
      ((summarizePrompt
          ⟨"Summarize the following text in ".data ++ ("{language}".data ++ (", in ".data ++
            ("{length}".data ++ (", ".data ++ ("{style}".data ++ (" style: ".data ++
              ("{text}".data ++ "".data)))))))⟩
          Languages.EN SummaryLength.SHORT SummaryStyle.PROFESSIONAL "Some text.").data) = true :=
  summarize_contract.2.2.2.2.1 "Summarize the following text in ".data ", in ".data
    ", ".data " style: ".data "".data Languages.EN SummaryStyle.PROFESSIONAL "Some text."
    (by decide) (by decide) (by decide) (by decide)
